import Mathlib

/-!
Verification development for the gest touchpad gesture engine.

This file shallowly embeds the gesture-recognition core of the repository
(src/gestures.rs, src/config.rs, src/sequence_step.rs) into Lean and proves
properties of the embedded code.

Modelling conventions, chosen once and used throughout:

* `f32`/`f64` values are modelled as rationals (`ℚ`).  The engine only adds,
  subtracts, multiplies, divides and compares these values; every concrete
  input used below keeps the compared quantities far from rounding
  boundaries, so the verdict of each comparison agrees with the IEEE one.
* `u8`/`u16` device values are modelled as `ℕ` (no arithmetic below ever
  reaches the wrap-around range of the source types).
* `HashMap<u8, Position>` is modelled as an association list in iteration
  order (`List (Slot × Position)`); `HashSet<u8>` as `Finset ℕ`.
* `Regex` is external to the repository; a compiled regex is modelled as a
  match predicate `String → Bool`.  For the configuration-loading claim the
  uncompiled pattern string is carried instead.
* Process spawning (`run_command`) is I/O; the embedding returns the list of
  command strings that the code would spawn, in dispatch order.
* `println!`/logging and the `Args` verbosity flag only affect logging and
  are dropped.
-/

namespace Gest

/-- Direction, from src/config.rs (Up/Down/Left/Right/None). -/
inductive Direction where
  | Up
  | Down
  | Left
  | Right
  | None
deriving DecidableEq

/-- Edge, from src/config.rs extended with the `Edge::None` value that
src/gestures.rs uses as the initial value of `slots_edge` (the config.rs
enum itself has only the four sides; gesture `edge` fields only ever carry
the four sides wrapped in `Option`). -/
inductive Edge where
  | Top
  | Bottom
  | Left
  | Right
  | None
deriving DecidableEq

/-- RepeatMode, from src/config.rs: a two-bit bitflags set
(`Tap = 0b01`, `Slide = 0b10`); modelled as one Bool per bit. -/
structure RepeatMode where
  tap : Bool
  slide : Bool
deriving DecidableEq

/-- `RepeatMode::None` (0b00). -/
def RepeatMode.None : RepeatMode := ⟨false, false⟩

/-- `RepeatMode::Tap` (0b01). -/
def RepeatMode.Tap : RepeatMode := ⟨true, false⟩

/-- `RepeatMode::Slide` (0b10). -/
def RepeatMode.Slide : RepeatMode := ⟨false, true⟩

/-- Position, from src/gestures.rs (`x, y : u16`). -/
structure Position where
  x : ℕ
  y : ℕ
deriving DecidableEq

/-- `Position::distance`: component-wise absolute difference. -/
def Position.distance (p other : Position) : Position :=
  ⟨Nat.dist p.x other.x, Nat.dist p.y other.y⟩

/-- Slot identifiers (`u8`). -/
abbrev Slot := ℕ

/-- `type State = HashMap<u8, Position>`, in iteration order. -/
abbrev State := List (Slot × Position)

/-- `HashMap::contains_key`. -/
def containsKey (s : State) (k : Slot) : Bool :=
  s.any (fun p => p.1 = k)

/-- `HashMap::get`. -/
def lookupKey (s : State) (k : Slot) : Option Position :=
  (s.find? (fun p => p.1 = k)).map Prod.snd

/-- `HashMap::insert`: replace the value if the key is present, otherwise
add the entry. -/
def insertA : State → Slot → Position → State
  | [], k, p => [(k, p)]
  | q :: rest, k, p => if q.1 = k then (k, p) :: rest else q :: insertA rest k p

/-- `HashMap::get_mut` followed by a write: update the value only when the
key is present. -/
def setKey (s : State) (k : Slot) (p : Position) : State :=
  s.map (fun q => if q.1 = k then (k, p) else q)

/-- MoveThresholdUnits, from src/gestures.rs. -/
structure MoveThresholdUnits where
  x : ℕ
  y : ℕ
deriving DecidableEq

/-- PerformedSequenceStep, from src/sequence_step.rs.  Slot sets are
`Finset`.  src/gestures.rs constructs `MoveEdge` without a distance
(line 143); the `distance` field declared in src/sequence_step.rs is
initialised to 0 there and is otherwise never read or written by the
engine. -/
inductive PerformedSequenceStep where
  | Move (slots : Finset Slot) (direction : Direction) (distance : ℚ)
  | TouchUp (slots : Finset Slot)
  | TouchDown (slots : Finset Slot)
  | MoveEdge (slots : Finset Slot) (edge : Edge) (direction : Direction) (distance : ℚ)
deriving DecidableEq

/-- DefinedSequenceStep, from src/sequence_step.rs (named distances already
resolved to values by `from_raw`; unresolved ones are `none`). -/
inductive DefinedSequenceStep where
  | TouchDown (fingers : ℕ)
  | TouchUp (fingers : ℕ)
  | Move (fingers : ℕ) (direction : Direction) (distance : Option ℚ)
  | MoveEdge (fingers : ℕ) (edge : Edge) (direction : Direction) (distance : Option ℚ)
deriving DecidableEq

/-- Gesture, from src/config.rs. -/
structure Gesture where
  name : String
  sequence : List DefinedSequenceStep
  edge : Option Edge
  repeat_mode : RepeatMode
  command : String
deriving DecidableEq

/-- EdgeOptions, from src/config.rs. -/
structure EdgeOptions where
  threshold : ℚ
  sensitivity : ℚ

/-- Options, from src/config.rs. -/
structure Options where
  move_threshold : ℚ
  edge : EdgeOptions
  run_all_matches : Bool
  distance : List (String × ℚ)

/-- A compiled `Regex`, modelled as its match predicate. -/
abbrev RegexP := String → Bool

/-- ApplicationGestures, from src/config.rs: ordered `(regex, gestures)`
lists. -/
structure ApplicationGestures where
  by_title : List (RegexP × List Gesture)
  by_class : List (RegexP × List Gesture)

/-- Config, from src/config.rs. -/
structure Config where
  options : Options
  gestures : List Gesture
  application_gestures : ApplicationGestures

/-- Window, from src/main.rs (`class` is a Lean keyword, hence `winClass`). -/
structure Window where
  winClass : String
  title : String

/-- GesturesManager, from src/gestures.rs.  The `Arc<Mutex<Window>>` is
modelled as the window value it holds; `args` only carries the verbosity
flag and is dropped. -/
structure GesturesManager where
  config : Config
  previous_state : State
  touch_down_state : State
  initial_touch_down_state : State
  performed_sequence : List PerformedSequenceStep
  repeat_mode : RepeatMode
  move_threshold_units : MoveThresholdUnits
  touchpad_size : MoveThresholdUnits
  active_window : Window
  slots_outside_ellipse : Finset Slot
  direction : Direction

/-- `GesturesManager::new`. -/
def GesturesManager.new (config : Config) (active_window : Window)
    (move_threshold_units touchpad_size : MoveThresholdUnits) : GesturesManager :=
  { config := config
    previous_state := []
    touch_down_state := []
    initial_touch_down_state := []
    performed_sequence := []
    repeat_mode := RepeatMode.None
    move_threshold_units := move_threshold_units
    touchpad_size := touchpad_size
    active_window := active_window
    slots_outside_ellipse := ∅
    direction := Direction.None }

/-- The touchpad dimension along a direction's axis, the repeated
`match direction { Up | Down => y, Left | Right => x }` of
src/gestures.rs (the `None` arm is bypassed by an early return or
`continue` at every use site; 0 here is never reached). -/
def dir_size (tsz : MoveThresholdUnits) (d : Direction) : ℕ :=
  match d with
  | Direction.Up | Direction.Down => tsz.y
  | Direction.Left | Direction.Right => tsz.x
  | Direction.None => 0

/-- `GesturesManager::update_last_step` (src/gestures.rs lines 70-84).
Mutates the trailing step when it is a `Move` with the same direction:
the slot is inserted and the recorded distance is overwritten with
`distance / size` (note: assigned, not maximised).  In the source the
slot insertion happens before the direction match, so the
`Direction::None` arm (which returns `false`) still keeps the inserted
slot. -/
def update_last_step (tsz : MoveThresholdUnits) (seq : List PerformedSequenceStep)
    (slot : Slot) (direction : Direction) (distance : ℚ) :
    Bool × List PerformedSequenceStep :=
  match seq.getLast? with
  | some (.Move slots dir dst) =>
    if dir = direction then
      let slots2 := insert slot slots
      match direction with
      | Direction.None => (false, seq.dropLast ++ [.Move slots2 dir dst])
      | _ => (true, seq.dropLast ++ [.Move slots2 dir (distance / (dir_size tsz direction : ℚ))])
    else (false, seq)
  | _ => (false, seq)

/-- `GesturesManager::is_at_edge` (src/gestures.rs lines 86-100).  The
`as u16` casts truncate the non-negative products, i.e. take the floor. -/
def is_at_edge (m : GesturesManager) (pos : Position) : Option Edge :=
  let edge_threshold_x : ℕ := ⌊(m.touchpad_size.x : ℚ) * m.config.options.edge.threshold⌋₊
  let edge_threshold_y : ℕ := ⌊(m.touchpad_size.y : ℚ) * m.config.options.edge.threshold⌋₊
  if pos.x ≤ edge_threshold_x then
    some Edge.Left
  else if pos.x ≥ m.touchpad_size.x - edge_threshold_x then
    some Edge.Right
  else if pos.y ≤ edge_threshold_y then
    some Edge.Top
  else if pos.y ≥ m.touchpad_size.y - edge_threshold_y then
    some Edge.Bottom
  else
    Option.none

/-- `GesturesManager::point_outside_of_ellipse` (src/gestures.rs
lines 264-270). -/
def point_outside_of_ellipse (m : GesturesManager) (x y h k : ℚ) (is_edge : Bool) : Bool :=
  let sensitivity : ℚ := if is_edge then 1 - m.config.options.edge.sensitivity else 1
  let nx := (x - h) / ((m.move_threshold_units.x : ℚ) * sensitivity)
  let ny := (y - k) / ((m.move_threshold_units.y : ℚ) * sensitivity)
  decide (nx * nx + ny * ny > 1)

/-- `GesturesManager::point_side_in_ellipse` (src/gestures.rs
lines 272-290). -/
def point_side_in_ellipse (m : GesturesManager) (x y h k : ℚ) : Direction :=
  let dx := x - h
  let dy := y - k
  let nx := dx / (m.move_threshold_units.x : ℚ)
  let ny := dy / (m.move_threshold_units.y : ℚ)
  if |nx| > |ny| then
    if dx ≥ 0 then Direction.Right else Direction.Left
  else if dy < 0 then Direction.Up
  else Direction.Down

/-- Whether a performed step is a `TouchDown` or `TouchUp` (the trailing-trim
test of src/gestures.rs lines 294-297). -/
def is_touch_step (step : PerformedSequenceStep) : Bool :=
  match step with
  | .TouchDown _ => true
  | .TouchUp _ => true
  | _ => false

/-- Number of trailing `TouchDown`/`TouchUp` steps
(`iter().rev().take_while(..).count()`). -/
def trailing_touch_count (seq : List PerformedSequenceStep) : ℕ :=
  (seq.reverse.takeWhile is_touch_step).length

/-- The sequence kept for matching after `split_off`: everything before the
trailing `TouchDown`/`TouchUp` steps. -/
def drop_trailing_touch (seq : List PerformedSequenceStep) : List PerformedSequenceStep :=
  seq.take (seq.length - trailing_touch_count seq)

/-- `impl PartialEq<PerformedSequenceStep> for DefinedSequenceStep`
(src/sequence_step.rs lines 162-201). -/
def defined_step_eq (defined : DefinedSequenceStep) (performed : PerformedSequenceStep) : Bool :=
  match defined, performed with
  | .Move fingers direction distance, .Move slots dir dst =>
    if fingers ≠ slots.card ∨ direction ≠ dir then false
    else
      match distance with
      | some d => if dst < d then false else true
      | Option.none => true
  | .TouchUp fingers, .TouchUp slots => decide (fingers = slots.card)
  | .TouchDown fingers, .TouchDown slots => decide (fingers = slots.card)
  | .MoveEdge fingers edge direction distance, .MoveEdge slots e dir dst =>
    if fingers ≠ slots.card ∨ edge ≠ e ∨ direction ≠ dir then false
    else
      match distance with
      | some d => if dst < d then false else true
      | Option.none => true
  | _, _ => false

/-- `GesturesManager::does_gesture_match` (src/gestures.rs lines 372-387).
The indexed loop over positionally paired steps is expressed as `zip` +
`all`, which is equivalent because the lengths are equal past the first
test.  Note the slide-mode test compares `gesture.repeat_mode` for bitset
equality with `Slide`, and no field of the gesture other than `sequence`
and `repeat_mode` is consulted. -/
def does_gesture_match (m : GesturesManager) (gesture : Gesture) (repeat_mode : RepeatMode) : Bool :=
  if gesture.sequence.length ≠ m.performed_sequence.length
      ∨ (gesture.repeat_mode ≠ RepeatMode.Slide ∧ repeat_mode = RepeatMode.Slide) then
    false
  else
    (gesture.sequence.zip m.performed_sequence).all (fun p => defined_step_eq p.1 p.2)

/-- The candidate list built in `match_gestures` (src/gestures.rs
lines 306-325): global gestures, then the gesture lists of each matching
`by_class` binding in insertion order, then the same for `by_title`. -/
def candidate_gestures (m : GesturesManager) : List Gesture :=
  let app_gestures_by_class :=
    m.config.application_gestures.by_class.foldl
      (fun acc rg => if rg.1 m.active_window.winClass then acc ++ rg.2 else acc) []
  let app_gestures_by_title :=
    m.config.application_gestures.by_title.foldl
      (fun acc rg => if rg.1 m.active_window.title then acc ++ rg.2 else acc) []
  m.config.gestures ++ app_gestures_by_class ++ app_gestures_by_title

/-- The single-match selection loop of `match_gestures` (src/gestures.rs
lines 341-354): starting from the first matching gesture and a running
maximum of 0.0, scan the *remaining* gestures' `Move` steps and switch to a
gesture whenever one of its defined distances strictly exceeds the running
maximum.  (The indexing `matching_gestures[0]` is guarded by non-emptiness
at the call site; `headD` supplies an irrelevant default.) -/
def select_gesture (matching : List Gesture) : Gesture :=
  let first : Gesture := matching.headD ⟨"", [], Option.none, RepeatMode.None, ""⟩
  let pick := fun (acc : Gesture × ℚ) (g : Gesture) =>
    g.sequence.foldl
      (fun (acc2 : Gesture × ℚ) step =>
        match step with
        | .Move _ _ (some dst) => if dst > acc2.2 then (g, dst) else acc2
        | _ => acc2)
      acc
  (matching.tail.foldl pick (first, 0)).1

/-- `GesturesManager::match_gestures` (src/gestures.rs lines 292-370).
Returns (whether a gesture fired, the commands dispatched in order, the
updated manager).  The temporary `split_off` of trailing touch steps, the
re-`extend` on failure, and the `repeat_mode` commit on success are
modelled exactly; `run_command` side effects become the command list. -/
def match_gestures (m : GesturesManager) (repeat_mode : RepeatMode) :
    Bool × List String × GesturesManager :=
  let kept := drop_trailing_touch m.performed_sequence
  let trailing :=
    m.performed_sequence.drop (m.performed_sequence.length - trailing_touch_count m.performed_sequence)
  let mm := { m with performed_sequence := kept }
  let matching := (candidate_gestures mm).filter (fun g => does_gesture_match mm g repeat_mode)
  if ! matching.isEmpty then
    let cmds :=
      if mm.config.options.run_all_matches then
        matching.map (fun g => g.command)
      else
        [(select_gesture matching).command]
    (true, cmds, { mm with repeat_mode := repeat_mode })
  else
    (false, [], { mm with performed_sequence := kept ++ trailing })

/-- Whether the trailing performed step is a `MoveEdge`
(`matches!(self.performed_sequence.last(), Some(MoveEdge { .. }))`). -/
def lastIsMoveEdge (seq : List PerformedSequenceStep) : Bool :=
  match seq.getLast? with
  | some (.MoveEdge _ _ _ _) => true
  | _ => false

/-- Whether the trailing performed step is a `TouchUp`. -/
def lastIsTouchUp (seq : List PerformedSequenceStep) : Bool :=
  match seq.getLast? with
  | some (.TouchUp _) => true
  | _ => false

/-- Accumulator for the first loop of `update_state`. -/
structure Phase1Acc where
  m : GesturesManager
  slots_at_edge : Finset Slot
  slots_edge : Edge

/-- Body of the first loop of `update_state` (src/gestures.rs
lines 122-139): insert unseen slots into `touch_down_state` and
`initial_touch_down_state`; for slots appearing for the very first time at
a touchpad edge, either absorb them into a trailing `MoveEdge` step or
collect them in `slots_at_edge` and remember the edge. -/
def phase1_step (acc : Phase1Acc) (sp : Slot × Position) : Phase1Acc :=
  let m := acc.m
  let m :=
    if containsKey m.touch_down_state sp.1 then m
    else { m with touch_down_state := insertA m.touch_down_state sp.1 sp.2 }
  if containsKey m.initial_touch_down_state sp.1 then
    { acc with m := m }
  else
    let m := { m with initial_touch_down_state := insertA m.initial_touch_down_state sp.1 sp.2 }
    match is_at_edge m sp.2 with
    | some edge =>
      match m.performed_sequence.getLast? with
      | some (.MoveEdge slots e d dst) =>
        { acc with
          m := { m with performed_sequence :=
                   m.performed_sequence.dropLast ++ [.MoveEdge (insert sp.1 slots) e d dst] } }
      | _ =>
        { m := m, slots_at_edge := insert sp.1 acc.slots_at_edge, slots_edge := edge }
    | Option.none => { acc with m := m }

/-- The first loop of `update_state` followed by the conditional `MoveEdge`
push of src/gestures.rs lines 141-144 (which fires when every slot of the
frame is a fresh at-edge slot; the pushed step carries `Direction::None`). -/
def phase12 (m : GesturesManager) (state : State) : GesturesManager :=
  let acc := state.foldl phase1_step { m := m, slots_at_edge := ∅, slots_edge := Edge.None }
  if acc.slots_at_edge.card = state.length then
    { acc.m with performed_sequence :=
        acc.m.performed_sequence ++ [.MoveEdge acc.slots_at_edge acc.slots_edge Direction.None 0] }
  else
    acc.m

/-- Body of the lifted-slot loop (src/gestures.rs lines 150-162): if the
trailing performed step is a `TouchUp`, add the slot to its set; otherwise
push `TouchUp { {slot} }`, re-seat `touch_down_state` from the current
frame, and drop the slot from `slots_outside_ellipse`.  No repeat-mode test
appears here. -/
def evict_one (state : State) (m : GesturesManager) (slot : Slot) : GesturesManager :=
  match m.performed_sequence.getLast? with
  | some (.TouchUp slots) =>
    { m with performed_sequence :=
        m.performed_sequence.dropLast ++ [.TouchUp (insert slot slots)] }
  | _ =>
    { m with
      performed_sequence := m.performed_sequence ++ [.TouchUp {slot}]
      touch_down_state := state.foldl (fun t sp => insertA t sp.1 sp.2) m.touch_down_state
      slots_outside_ellipse := m.slots_outside_ellipse.erase slot }

/-- `extract_if` of lifted slots (src/gestures.rs lines 146-149) followed
by the eviction loop: remove from `touch_down_state` every slot absent from
the frame and process each removed slot with `evict_one`. -/
def phase3_evict (m : GesturesManager) (state : State) : GesturesManager :=
  let lifted := (m.touch_down_state.filter (fun p => ! containsKey state p.1)).map Prod.fst
  let m := { m with touch_down_state := m.touch_down_state.filter (fun p => containsKey state p.1) }
  lifted.foldl (evict_one state) m

/-- Body of the edge-move loop (src/gestures.rs lines 165-184): when the
position left the sensitivity-shrunk ellipse around its `touch_down_state`
reference, write the side direction into the trailing `MoveEdge` step,
invoke the matcher in slide mode, and re-seat `touch_down_state` from the
current frame. -/
def edge_move_step (state : State) (acc : GesturesManager × List String)
    (sp : Slot × Position) : GesturesManager × List String :=
  let m := acc.1
  match lookupKey m.touch_down_state sp.1 with
  | Option.none => acc
  | some start_pos =>
    if point_outside_of_ellipse m (sp.2.x : ℚ) (sp.2.y : ℚ) (start_pos.x : ℚ) (start_pos.y : ℚ) true then
      let direction := point_side_in_ellipse m (sp.2.x : ℚ) (sp.2.y : ℚ) (start_pos.x : ℚ) (start_pos.y : ℚ)
      let m :=
        match m.performed_sequence.getLast? with
        | some (.MoveEdge slots e _ dst) =>
          { m with performed_sequence :=
              m.performed_sequence.dropLast ++ [.MoveEdge slots e direction dst] }
        | _ => m
      let r := match_gestures m RepeatMode.Slide
      let m := r.2.2
      let m := { m with touch_down_state := state.foldl (fun t sp2 => insertA t sp2.1 sp2.2) m.touch_down_state }
      (m, acc.2 ++ r.2.1)
    else
      acc

/-- The edge-move loop, entered only when the trailing performed step is a
`MoveEdge` (src/gestures.rs line 164). -/
def phase4_edge (m : GesturesManager) (state : State) : GesturesManager × List String :=
  if lastIsMoveEdge m.performed_sequence then
    state.foldl (edge_move_step state) (m, [])
  else
    (m, [])

/-- The outside-of-ellipse branch of the main per-slot loop
(src/gestures.rs lines 193-224).  Returns the updated manager and whether
the Rust `continue` of the unreachable `Direction::None` arm fired (which
skips the trailing-distance refinement for this slot). -/
def process_slot_outside (m : GesturesManager) (sp : Slot × Position) (start_pos : Position) :
    GesturesManager × Bool :=
  if point_outside_of_ellipse m (sp.2.x : ℚ) (sp.2.y : ℚ) (start_pos.x : ℚ) (start_pos.y : ℚ) false then
    let direction := point_side_in_ellipse m (sp.2.x : ℚ) (sp.2.y : ℚ) (start_pos.x : ℚ) (start_pos.y : ℚ)
    let m := { m with direction := direction }
    let distance : ℕ :=
      match lookupKey m.initial_touch_down_state sp.1 with
      | some itd =>
        let d := sp.2.distance itd
        match direction with
        | Direction.Up | Direction.Down => d.y
        | Direction.Left | Direction.Right => d.x
        | Direction.None => 0
      | Option.none => 0
    let res := update_last_step m.touchpad_size m.performed_sequence sp.1 direction (Nat.cast distance)
    if res.1 then
      ({ m with
          performed_sequence := res.2
          touch_down_state := setKey m.touch_down_state sp.1 sp.2
          slots_outside_ellipse := insert sp.1 m.slots_outside_ellipse }, false)
    else
      match direction with
      | Direction.None => ({ m with performed_sequence := res.2 }, true)
      | Direction.Up | Direction.Down =>
        ({ m with
            performed_sequence :=
              res.2 ++ [.Move {sp.1} direction (Nat.cast distance / (m.touchpad_size.y : ℚ))]
            touch_down_state := setKey m.touch_down_state sp.1 sp.2
            slots_outside_ellipse := insert sp.1 m.slots_outside_ellipse }, false)
      | Direction.Left | Direction.Right =>
        ({ m with
            performed_sequence :=
              res.2 ++ [.Move {sp.1} direction (Nat.cast distance / (m.touchpad_size.x : ℚ))]
            touch_down_state := setKey m.touch_down_state sp.1 sp.2
            slots_outside_ellipse := insert sp.1 m.slots_outside_ellipse }, false)
  else
    (m, false)

/-- The trailing-distance refinement of the main per-slot loop
(src/gestures.rs lines 226-235): recompute the slot's axis displacement
from its initial touch-down position along the engine's current direction
and hand it to `update_last_step` (which overwrites the trailing Move's
distance when the directions agree). -/
def process_slot_refine (m : GesturesManager) (sp : Slot × Position) : GesturesManager :=
  match lookupKey m.initial_touch_down_state sp.1 with
  | Option.none => m
  | some itd =>
    let d := sp.2.distance itd
    match m.direction with
    | Direction.None => m
    | _ =>
      let dist : ℕ :=
        match m.direction with
        | Direction.Up | Direction.Down => d.y
        | Direction.Left | Direction.Right => d.x
        | Direction.None => 0
      { m with performed_sequence :=
          (update_last_step m.touchpad_size m.performed_sequence sp.1 m.direction (Nat.cast dist)).2 }

/-- One iteration of the main per-slot loop (src/gestures.rs
lines 187-236). -/
def process_slot (m : GesturesManager) (sp : Slot × Position) : GesturesManager :=
  match lookupKey m.touch_down_state sp.1 with
  | Option.none => m
  | some start_pos =>
    let r := process_slot_outside m sp start_pos
    if r.2 then r.1 else process_slot_refine r.1 sp

/-- The main per-slot loop. -/
def phase5_moves (m : GesturesManager) (state : State) : GesturesManager :=
  state.foldl process_slot m

/-- The all-slots-outside-ellipse check (src/gestures.rs lines 238-243):
when every frame slot has crossed the ellipse, clear the bookkeeping set
and invoke the matcher in slide mode. -/
def phase6_soe (m : GesturesManager) (state : State) : GesturesManager × List String :=
  if m.slots_outside_ellipse.card = state.length
      ∧ ∀ s ∈ m.slots_outside_ellipse, containsKey state s = true then
    let r := match_gestures { m with slots_outside_ellipse := ∅ } RepeatMode.Slide
    (r.2.2, r.2.1)
  else
    (m, [])

/-- Test for the two-step suffix `[TouchUp { .. }, TouchDown { .. }]`
(src/gestures.rs line 256); only evaluated on sequences of length ≥ 2. -/
def tail_two_tap (seq : List PerformedSequenceStep) : Bool :=
  match seq.drop (seq.length - 2) with
  | [.TouchUp _, .TouchDown _] => true
  | _ => false

/-- The finger-addition branch (src/gestures.rs lines 245-259).  The two
spots where the source can panic are modelled as `Option.none`: the
`.unwrap()` on the search for the newly added slot, and the slice
`performed_sequence[len - 2..]` when the sequence is shorter than 2 (an
index underflow in the source). -/
def finger_addition (state : State) (m : GesturesManager) :
    Option (GesturesManager × List String) :=
  if state.length > m.previous_state.length ∧ m.performed_sequence ≠ [] then
    let is_edge := lastIsMoveEdge m.performed_sequence
    match (state.map Prod.fst).find? (fun k => ! containsKey m.previous_state k) with
    | Option.none => Option.none
    | some new_slot =>
      let m :=
        match m.performed_sequence.getLast? with
        | some (.TouchDown slots) =>
          { m with performed_sequence :=
              m.performed_sequence.dropLast ++ [.TouchDown (insert new_slot slots)] }
        | _ =>
          if is_edge then m
          else { m with performed_sequence := m.performed_sequence ++ [.TouchDown {new_slot}] }
      if is_edge then
        let r := match_gestures m RepeatMode.Tap
        some (r.2.2, r.2.1)
      else if m.performed_sequence.length < 2 then
        Option.none
      else if tail_two_tap m.performed_sequence then
        let r := match_gestures m RepeatMode.Tap
        some (r.2.2, r.2.1)
      else
        some (m, [])
  else
    some (m, [])

/-- `GesturesManager::update_state` (src/gestures.rs lines 102-262).
Returns `none` exactly when the source would panic, and otherwise the
updated manager together with the commands dispatched during the frame, in
order.  The empty-frame branch (lines 104-117) runs a final `None`-mode
match (or clears the repeat flag) and then resets every field except
`direction`. -/
def update_state (m : GesturesManager) (state : State) :
    Option (GesturesManager × List String) :=
  if state.isEmpty then
    let r :=
      if m.repeat_mode = RepeatMode.None then match_gestures m RepeatMode.None
      else (false, [], { m with repeat_mode := RepeatMode.None })
    some ({ r.2.2 with
              previous_state := []
              touch_down_state := []
              initial_touch_down_state := []
              performed_sequence := []
              slots_outside_ellipse := ∅ }, r.2.1)
  else
    let p4 := phase4_edge (phase3_evict (phase12 m state) state) state
    let p6 := phase6_soe (phase5_moves p4.1 state) state
    match finger_addition state p6.1 with
    | Option.none => Option.none
    | some (m8, c8) =>
      some ({ m8 with previous_state := state }, p4.2 ++ p6.2 ++ c8)

/-- Feed a list of frames through `update_state`, accumulating dispatched
commands; `none` as soon as a frame panics. -/
def runFrames (m : GesturesManager) (frames : List State) :
    Option (GesturesManager × List String) :=
  frames.foldl
    (fun acc s =>
      match acc with
      | Option.none => Option.none
      | some (m0, cs) => (update_state m0 s).map (fun p => (p.1, cs ++ p.2)))
    (some (m, []))

/-- `str::split_once` on a character: split at the first occurrence. -/
def split_once_aux (c : Char) : List Char → Option (List Char × List Char)
  | [] => Option.none
  | x :: xs =>
    if x = c then some ([], xs)
    else (split_once_aux c xs).map (fun p => (x :: p.1, p.2))

/-- `str::split_once(',')` as used by `Config::from_raw`. -/
def split_once (s : String) (c : Char) : Option (String × String) :=
  (split_once_aux c s.data).map (fun p => (⟨p.1⟩, ⟨p.2⟩))

/-- `str::strip_prefix`, on the character lists underlying the strings. -/
def stripPrefixS (s p : String) : Option String :=
  if s.data.take p.data.length = p.data then some ⟨s.data.drop p.data.length⟩
  else Option.none

/-- The application-gesture binding lists before regex compilation: each
binding carries the raw pattern string.  (`Regex::new` is external; the
claim about `Config::from_raw` concerns only which list a key's gestures
land in, so compilation is dropped and patterns are carried verbatim.) -/
structure ApplicationGesturesRawModel where
  by_title : List (String × List Gesture)
  by_class : List (String × List Gesture)
deriving DecidableEq

/-- The per-key body of the `application_gestures` loop of
`Config::from_raw` (src/config.rs lines 181-217): a composite
`class:..,title:..` key pushes to both lists (invalid parts abort with an
error, modelled as `none`); a lone `title:` key pushes to `by_title`; a
lone `class:` key *also* pushes to `by_title` (line 211); a bare key is
treated as a class pattern. -/
def from_raw_app_entry (ag : ApplicationGesturesRawModel) (app_name : String)
    (gestures : List Gesture) : Option ApplicationGesturesRawModel :=
  match split_once app_name ',' with
  | some (first, second) =>
    let step := fun (acc : Option (Option String × Option String)) (part : String) =>
      match acc with
      | Option.none => Option.none
      | some (c, t) =>
        match stripPrefixS part "class:" with
        | some s => some (some s, t)
        | Option.none =>
          match stripPrefixS part "title:" with
          | some s => some (c, some s)
          | Option.none => Option.none
    match [first, second].foldl step (some (Option.none, Option.none)) with
    | Option.none => Option.none
    | some (class_regex, title_regex) =>
      let ag :=
        match class_regex with
        | some r => { ag with by_class := ag.by_class ++ [(r, gestures)] }
        | Option.none => ag
      let ag :=
        match title_regex with
        | some r => { ag with by_title := ag.by_title ++ [(r, gestures)] }
        | Option.none => ag
      some ag
  | Option.none =>
    match stripPrefixS app_name "title:" with
    | some regex_title_str => some { ag with by_title := ag.by_title ++ [(regex_title_str, gestures)] }
    | Option.none =>
      match stripPrefixS app_name "class:" with
      | some regex_class_str => some { ag with by_title := ag.by_title ++ [(regex_class_str, gestures)] }
      | Option.none => some { ag with by_class := ag.by_class ++ [(app_name, gestures)] }

/-! ## Concrete instances used by the claim theorems -/

/-- Default-style options: `move_threshold = 0.15`,
`edge.threshold = 0.05`, `edge.sensitivity = 0.5`,
`run_all_matches = false`. -/
def optionsDefault : Options :=
  { move_threshold := 15/100
    edge := { threshold := 1/20, sensitivity := 1/2 }
    run_all_matches := false
    distance := [] }

/-- A catalog with no gestures at all. -/
def cfg0 : Config :=
  { options := optionsDefault
    gestures := []
    application_gestures := { by_title := [], by_class := [] } }

/-- An active window with empty class and title. -/
def win0 : Window := { winClass := "", title := "" }

/-- `G1` of the tie-break scenario: one 1-finger Move Up with
`min_distance = 0.2`, no repeat. -/
def g1C1 : Gesture :=
  { name := "G1"
    sequence := [.Move 1 Direction.Up (some (1/5))]
    edge := Option.none
    repeat_mode := RepeatMode.None
    command := "cmd-g1" }

/-- `G2` of the tie-break scenario: same shape with
`min_distance = 0.4`. -/
def g2C1 : Gesture :=
  { name := "G2"
    sequence := [.Move 1 Direction.Up (some (2/5))]
    edge := Option.none
    repeat_mode := RepeatMode.None
    command := "cmd-g2" }

/-- Catalog for the tie-break scenario with `G2` listed first. -/
def cfgC1 : Config :=
  { options := optionsDefault
    gestures := [g2C1, g1C1]
    application_gestures := { by_title := [], by_class := [] } }

/-- Fresh manager over the `[G2, G1]` catalog; touchpad 1000×1000,
move-threshold units 150×150 (= 1000 · 0.15). -/
def mC1 : GesturesManager := GesturesManager.new cfgC1 win0 ⟨150, 150⟩ ⟨1000, 1000⟩

/-- An edge-tagged gesture: `edge = Some(Left)`, one 1-finger Move Up, no
minimum distance, slide repeat. -/
def gEdgeC2 : Gesture :=
  { name := "GE"
    sequence := [.Move 1 Direction.Up Option.none]
    edge := some Edge.Left
    repeat_mode := RepeatMode.Slide
    command := "edge-cmd" }

/-- Catalog holding only the edge-tagged gesture. -/
def cfgC2 : Config :=
  { options := optionsDefault
    gestures := [gEdgeC2]
    application_gestures := { by_title := [], by_class := [] } }

/-- Fresh manager over the edge-gesture catalog. -/
def mC2 : GesturesManager := GesturesManager.new cfgC2 win0 ⟨150, 150⟩ ⟨1000, 1000⟩

/-- A manager whose performed sequence is a single 1-finger Move Up of
normalized distance 0.2. -/
def mC3 : GesturesManager :=
  { GesturesManager.new cfg0 win0 ⟨150, 150⟩ ⟨1000, 1000⟩ with
      performed_sequence := [.Move {0} Direction.Up (1/5)] }

/-- A gesture with the combined `tap slide` repeat mode (bitset 0b11). -/
def gTapSlideC3 : Gesture :=
  { name := "ts"
    sequence := [.Move 1 Direction.Up Option.none]
    edge := Option.none
    repeat_mode := { tap := true, slide := true }
    command := "cmd-ts" }

/-- The same gesture with repeat mode exactly `slide` (0b10). -/
def gSlideOnlyC3 : Gesture :=
  { name := "s"
    sequence := [.Move 1 Direction.Up Option.none]
    edge := Option.none
    repeat_mode := RepeatMode.Slide
    command := "cmd-s" }

/-- A manager mid-gesture: remembered direction `Up`, slide repeat
consumed. -/
def mC4 : GesturesManager :=
  { GesturesManager.new cfg0 win0 ⟨150, 150⟩ ⟨1000, 1000⟩ with
      previous_state := [(0, ⟨500, 300⟩)]
      touch_down_state := [(0, ⟨500, 300⟩)]
      initial_touch_down_state := [(0, ⟨500, 500⟩)]
      performed_sequence := [.Move {0} Direction.Up (1/5)]
      repeat_mode := RepeatMode.Slide
      direction := Direction.Up }

/-- A manager in slide repeat with two fingers down and a trailing
2-finger Move Up step. -/
def mC5 : GesturesManager :=
  { GesturesManager.new cfg0 win0 ⟨150, 150⟩ ⟨1000, 1000⟩ with
      previous_state := [(0, ⟨500, 500⟩), (1, ⟨520, 500⟩)]
      touch_down_state := [(0, ⟨500, 500⟩), (1, ⟨520, 500⟩)]
      initial_touch_down_state := [(0, ⟨500, 500⟩), (1, ⟨520, 500⟩)]
      performed_sequence := [.Move {0, 1} Direction.Up (1/5)]
      repeat_mode := RepeatMode.Slide
      direction := Direction.Up }

/-- Fresh manager over the empty catalog (trailing-distance scenario). -/
def mC6 : GesturesManager := GesturesManager.new cfg0 win0 ⟨150, 150⟩ ⟨1000, 1000⟩

/-- Fresh manager over the empty catalog (edge-touch scenario). -/
def mC7 : GesturesManager := GesturesManager.new cfg0 win0 ⟨150, 150⟩ ⟨1000, 1000⟩

/-- A gesture list bound to an application key in the C8 scenario. -/
def gsC8 : List Gesture :=
  [{ name := "app"
     sequence := [.TouchDown 2]
     edge := Option.none
     repeat_mode := RepeatMode.None
     command := "cmd-app" }]

/-- Reachability of manager states from a given start state through
arbitrary (non-panicking) frames. -/
inductive Reaches (m0 : GesturesManager) : GesturesManager → Prop where
  | refl : Reaches m0 m0
  | step {m : GesturesManager} (s : State) {p : GesturesManager × List String} :
      Reaches m0 m → update_state m s = some p → Reaches m0 p.1

/-- Well-formedness of a frame: distinct slot keys, guaranteed by the
source's `HashMap`. -/
def FrameWF (s : State) : Prop := (s.map Prod.fst).Nodup

/-- A manager with a non-empty performed sequence ending in a `TouchUp`
(trailing trim non-trivial) over the empty catalog. -/
def mC10 : GesturesManager :=
  { GesturesManager.new cfg0 win0 ⟨150, 150⟩ ⟨1000, 1000⟩ with
      performed_sequence := [.Move {0} Direction.Up (1/2), .TouchUp {0}] }

/-! ## Invariant machinery

`SeqOk` is the invariant on performed sequences maintained by
`update_state`: the first stored step is never a `TouchDown` (a
`TouchDown` is only ever pushed behind an existing step), and no plain
`Move` step carries `Direction::None` (plain moves are only created from
`point_side_in_ellipse`, which never returns `None`). -/

/-- The step is not a `TouchDown`. -/
def NotTouchDown (x : PerformedSequenceStep) : Prop :=
  ∀ s : Finset Slot, x ≠ PerformedSequenceStep.TouchDown s

/-- The step is not a plain `Move` carrying `Direction::None`. -/
def NotNoneMove (x : PerformedSequenceStep) : Prop :=
  ∀ (slots : Finset Slot) (dst : ℚ), x ≠ PerformedSequenceStep.Move slots Direction.None dst

/-- Invariant of performed sequences (see section comment). -/
def SeqOk (seq : List PerformedSequenceStep) : Prop :=
  (∀ x, seq.head? = some x → NotTouchDown x) ∧ (∀ x ∈ seq, NotNoneMove x)

theorem seqOk_nil : SeqOk [] := by
  constructor
  · intro x hx
    simp at hx
  · intro x hx
    simp at hx

theorem seqOk_append_step {seq : List PerformedSequenceStep} {x : PerformedSequenceStep}
    (h : SeqOk seq) (h1 : NotTouchDown x) (h2 : NotNoneMove x) : SeqOk (seq ++ [x]) := by
  constructor
  · intro y hy
    cases seq with
    | nil =>
      simp at hy
      subst hy
      exact h1
    | cons a t =>
      simp at hy
      subst hy
      exact h.1 a rfl
  · intro y hy
    rcases List.mem_append.mp hy with hl | hr
    · exact h.2 y hl
    · simp at hr
      subst hr
      exact h2

theorem seqOk_append_of_ne_nil {seq : List PerformedSequenceStep} {x : PerformedSequenceStep}
    (h : SeqOk seq) (hne : seq ≠ []) (h2 : NotNoneMove x) : SeqOk (seq ++ [x]) := by
  constructor
  · intro y hy
    cases seq with
    | nil => exact absurd rfl hne
    | cons a t =>
      simp at hy
      subst hy
      exact h.1 a rfl
  · intro y hy
    rcases List.mem_append.mp hy with hl | hr
    · exact h.2 y hl
    · simp at hr
      subst hr
      exact h2

theorem seqOk_replace_last_nt {seq : List PerformedSequenceStep} {x : PerformedSequenceStep}
    (h : SeqOk seq) (h1 : NotTouchDown x) (h2 : NotNoneMove x) :
    SeqOk (seq.dropLast ++ [x]) := by
  constructor
  · intro y hy
    cases seq with
    | nil =>
      simp at hy
      subst hy
      exact h1
    | cons a t =>
      cases t with
      | nil =>
        simp at hy
        subst hy
        exact h1
      | cons b u =>
        simp at hy
        subst hy
        exact h.1 a rfl
  · intro y hy
    rcases List.mem_append.mp hy with hl | hr
    · exact h.2 y ((List.dropLast_sublist seq).subset hl)
    · simp at hr
      subst hr
      exact h2

theorem seqOk_replace_last_td {seq : List PerformedSequenceStep} {s0 : Finset Slot}
    (h : SeqOk seq) (hl : seq.getLast? = some (.TouchDown s0)) (s : Finset Slot) :
    SeqOk (seq.dropLast ++ [PerformedSequenceStep.TouchDown s]) := by
  constructor
  · intro y hy
    cases seq with
    | nil => simp at hl
    | cons a t =>
      cases t with
      | nil =>
        simp at hl
        exact absurd hl (h.1 a rfl s0)
      | cons b u =>
        simp at hy
        subst hy
        exact h.1 a rfl
  · intro y hy
    rcases List.mem_append.mp hy with hleft | hr
    · exact h.2 y ((List.dropLast_sublist seq).subset hleft)
    · simp at hr
      subst hr
      intro slots dst hx
      exact PerformedSequenceStep.noConfusion hx

theorem mem_of_getLastP {α : Type _} {l : List α} {x : α} (h : l.getLast? = some x) : x ∈ l := by
  rcases List.mem_getLast?_eq_getLast (l := l) (x := x) (by simp [h]) with ⟨hne, hx⟩
  rw [hx]
  exact List.getLast_mem hne

theorem seqOk_take {seq : List PerformedSequenceStep} (h : SeqOk seq) (n : ℕ) :
    SeqOk (seq.take n) := by
  constructor
  · intro y hy
    cases n with
    | zero => simp at hy
    | succ k =>
      cases seq with
      | nil => simp at hy
      | cons a t =>
        simp at hy
        subst hy
        exact h.1 a rfl
  · intro y hy
    exact h.2 y (List.take_subset n seq hy)

theorem seqOk_update_last_step (tsz : MoveThresholdUnits) {seq : List PerformedSequenceStep}
    (slot : Slot) (d : Direction) (q : ℚ) (h : SeqOk seq) :
    SeqOk (update_last_step tsz seq slot d q).2 := by
  unfold update_last_step
  split
  next slots dir dst heq =>
    split
    next hdir =>
      split
      · -- Direction.None arm: the trailing Move itself carries None,
        -- contradicting the invariant.
        exfalso
        subst hdir
        exact h.2 _ (mem_of_getLastP heq) slots dst rfl
      · refine seqOk_replace_last_nt h ?_ ?_
        · intro s hx
          exact PerformedSequenceStep.noConfusion hx
        · intro s q2 hx
          injection hx with h1 h2 h3
          subst hdir
          subst h2
          simp_all
    next => exact h
  next => exact h

/-- Case split on `match_gestures`: on failure the manager is returned
unchanged (the trailing steps are re-appended in their original order and
the take/drop split recombines to the original sequence); on success the
trailing steps stay discarded and `repeat_mode` becomes the invocation
mode. -/
theorem match_gestures_cases (m : GesturesManager) (rm : RepeatMode) :
    ((match_gestures m rm).1 = false ∧ (match_gestures m rm).2.2 = m) ∨
    ((match_gestures m rm).1 = true ∧
      (match_gestures m rm).2.2 =
        { m with performed_sequence := drop_trailing_touch m.performed_sequence
                 repeat_mode := rm }) := by
  unfold match_gestures
  dsimp only
  split
  · exact Or.inr ⟨rfl, rfl⟩
  · refine Or.inl ⟨rfl, ?_⟩
    show { m with performed_sequence := drop_trailing_touch m.performed_sequence ++ m.performed_sequence.drop (m.performed_sequence.length - trailing_touch_count m.performed_sequence) } = m
    rw [drop_trailing_touch, List.take_append_drop]

theorem seqOk_match_gestures (m : GesturesManager) (rm : RepeatMode)
    (h : SeqOk m.performed_sequence) :
    SeqOk (match_gestures m rm).2.2.performed_sequence := by
  rcases match_gestures_cases m rm with ⟨_, h2⟩ | ⟨_, h2⟩ <;> rw [h2]
  · exact h
  · exact seqOk_take h _

theorem foldl_preserve {α β : Type _} (P : α → Prop) (f : α → β → α)
    (hf : ∀ a b, P a → P (f a b)) :
    ∀ (l : List β) (a : α), P a → P (l.foldl f a)
  | [], _, h => h
  | x :: xs, a, h => foldl_preserve P f hf xs (f a x) (hf a x h)

theorem seqOk_phase1_step (acc : Phase1Acc) (sp : Slot × Position)
    (h : SeqOk acc.m.performed_sequence) :
    SeqOk (phase1_step acc sp).m.performed_sequence := by
  unfold phase1_step
  dsimp only
  repeat' split
  all_goals
    first
      | exact h
      | exact seqOk_replace_last_nt h
          (fun s hx => PerformedSequenceStep.noConfusion hx)
          (fun slots dst hx => PerformedSequenceStep.noConfusion hx)

theorem seqOk_phase12 (m : GesturesManager) (state : State)
    (h : SeqOk m.performed_sequence) :
    SeqOk (phase12 m state).performed_sequence := by
  have hfold :
      SeqOk ((state.foldl phase1_step
        { m := m, slots_at_edge := ∅, slots_edge := Edge.None }).m.performed_sequence) :=
    foldl_preserve (fun acc => SeqOk acc.m.performed_sequence) phase1_step
      seqOk_phase1_step state _ h
  unfold phase12
  dsimp only
  split
  · exact seqOk_append_step hfold
      (fun s hx => PerformedSequenceStep.noConfusion hx)
      (fun slots dst hx => PerformedSequenceStep.noConfusion hx)
  · exact hfold

theorem seqOk_evict_one (state : State) (m : GesturesManager) (slot : Slot)
    (h : SeqOk m.performed_sequence) :
    SeqOk (evict_one state m slot).performed_sequence := by
  unfold evict_one
  repeat' split
  all_goals
    first
      | exact seqOk_replace_last_nt h
          (fun s hx => PerformedSequenceStep.noConfusion hx)
          (fun slots dst hx => PerformedSequenceStep.noConfusion hx)
      | exact seqOk_append_step h
          (fun s hx => PerformedSequenceStep.noConfusion hx)
          (fun slots dst hx => PerformedSequenceStep.noConfusion hx)

theorem seqOk_phase3_evict (m : GesturesManager) (state : State)
    (h : SeqOk m.performed_sequence) :
    SeqOk (phase3_evict m state).performed_sequence := by
  unfold phase3_evict
  dsimp only
  refine foldl_preserve (fun a => SeqOk a.performed_sequence) (evict_one state)
    (fun a slot ha => seqOk_evict_one state a slot ha) _ _ ?_
  exact h

theorem seqOk_edge_move_step (state : State) (acc : GesturesManager × List String)
    (sp : Slot × Position) (h : SeqOk acc.1.performed_sequence) :
    SeqOk (edge_move_step state acc sp).1.performed_sequence := by
  unfold edge_move_step
  dsimp only
  repeat' split
  all_goals
    first
      | exact h
      | exact seqOk_match_gestures _ _ h
      | exact seqOk_match_gestures _ _ (seqOk_replace_last_nt h
          (fun s hx => PerformedSequenceStep.noConfusion hx)
          (fun slots dst hx => PerformedSequenceStep.noConfusion hx))

theorem seqOk_phase4_edge (m : GesturesManager) (state : State)
    (h : SeqOk m.performed_sequence) :
    SeqOk (phase4_edge m state).1.performed_sequence := by
  unfold phase4_edge
  split
  · refine foldl_preserve (fun a => SeqOk a.1.performed_sequence) (edge_move_step state)
      (fun a sp ha => seqOk_edge_move_step state a sp ha) _ _ ?_
    exact h
  · exact h

theorem seqOk_process_slot_outside (m : GesturesManager) (sp : Slot × Position)
    (start_pos : Position) (h : SeqOk m.performed_sequence) :
    SeqOk (process_slot_outside m sp start_pos).1.performed_sequence := by
  unfold process_slot_outside
  dsimp only
  repeat' split
  all_goals
    first
      | exact h
      | exact seqOk_update_last_step _ _ _ _ h
      | (refine seqOk_append_step (seqOk_update_last_step _ _ _ _ h)
          (fun s hx => PerformedSequenceStep.noConfusion hx)
          (fun slots dst hx => ?_)
         injection hx with h1 h2 h3
         simp_all)

theorem seqOk_process_slot_refine (m : GesturesManager) (sp : Slot × Position)
    (h : SeqOk m.performed_sequence) :
    SeqOk (process_slot_refine m sp).performed_sequence := by
  unfold process_slot_refine
  repeat' split
  all_goals
    first
      | exact h
      | exact seqOk_update_last_step _ _ _ _ h

theorem seqOk_process_slot (m : GesturesManager) (sp : Slot × Position)
    (h : SeqOk m.performed_sequence) :
    SeqOk (process_slot m sp).performed_sequence := by
  unfold process_slot
  dsimp only
  split
  · exact h
  · split
    · exact seqOk_process_slot_outside _ _ _ h
    · exact seqOk_process_slot_refine _ _ (seqOk_process_slot_outside _ _ _ h)

theorem seqOk_phase5_moves (m : GesturesManager) (state : State)
    (h : SeqOk m.performed_sequence) :
    SeqOk (phase5_moves m state).performed_sequence := by
  unfold phase5_moves
  exact foldl_preserve (fun a => SeqOk a.performed_sequence) process_slot
    (fun a sp ha => seqOk_process_slot a sp ha) _ _ h

theorem seqOk_phase6_soe (m : GesturesManager) (state : State)
    (h : SeqOk m.performed_sequence) :
    SeqOk (phase6_soe m state).1.performed_sequence := by
  unfold phase6_soe
  split
  · exact seqOk_match_gestures _ _ h
  · exact h

theorem seqOk_finger_addition (state : State) (m : GesturesManager)
    (p : GesturesManager × List String) (h : SeqOk m.performed_sequence)
    (he : finger_addition state m = some p) : SeqOk p.1.performed_sequence := by
  unfold finger_addition at he
  dsimp only at he
  repeat' split at he
  all_goals
    first
      | exact Option.noConfusion he
      | (injection he with he1
         subst he1
         first
           | exact h
           | exact seqOk_match_gestures _ _ h
           | exact seqOk_replace_last_td h (by assumption) _
           | exact seqOk_match_gestures _ _ (seqOk_replace_last_td h (by assumption) _)
           | exact seqOk_append_of_ne_nil h (by simp_all)
               (fun slots dst hx => PerformedSequenceStep.noConfusion hx)
           | exact seqOk_match_gestures _ _ (seqOk_append_of_ne_nil h (by simp_all)
               (fun slots dst hx => PerformedSequenceStep.noConfusion hx)))

theorem seqOk_update_state (m : GesturesManager) (state : State)
    (p : GesturesManager × List String) (h : SeqOk m.performed_sequence)
    (he : update_state m state = some p) : SeqOk p.1.performed_sequence := by
  unfold update_state at he
  dsimp only at he
  split at he
  · injection he with he1
    subst he1
    exact seqOk_nil
  · split at he
    · exact Option.noConfusion he
    next m8 c8 heq =>
      injection he with he1
      subst he1
      exact seqOk_finger_addition state _ (m8, c8)
        (seqOk_phase6_soe _ state (seqOk_phase5_moves _ state
          (seqOk_phase4_edge _ state (seqOk_phase3_evict _ state (seqOk_phase12 m state h)))))
        heq

theorem reaches_seqOk (cfg : Config) (w : Window) (mtu tsz : MoveThresholdUnits)
    (m : GesturesManager) (h : Reaches (GesturesManager.new cfg w mtu tsz) m) :
    SeqOk m.performed_sequence := by
  induction h with
  | refl => exact seqOk_nil
  | @step m1 s p hr he ih => exact seqOk_update_state m1 s p ih he

theorem containsKey_eq_true_iff (s : State) (k : Slot) :
    containsKey s k = true ↔ k ∈ s.map Prod.fst := by
  simp [containsKey, List.any_eq_true, List.mem_map]

theorem find_fresh_key_ne_none (state prev : State) (hwf : FrameWF state)
    (hlt : prev.length < state.length) :
    (state.map Prod.fst).find? (fun k => ! containsKey prev k) ≠ Option.none := by
  intro hnone
  have hsub : (state.map Prod.fst) ⊆ prev.map Prod.fst := by
    intro k hk
    have hx := List.find?_eq_none.mp hnone k hk
    simp at hx
    exact (containsKey_eq_true_iff prev k).mp hx
  have hsp := List.subperm_of_subset hwf hsub
  have hle := hsp.length_le
  simp [List.length_map] at hle
  omega


theorem two_le_length_of_last_touchdown {seq : List PerformedSequenceStep}
    {s : Finset Slot} (h : SeqOk seq)
    (hl : seq.getLast? = some (PerformedSequenceStep.TouchDown s)) : 2 ≤ seq.length := by
  cases seq with
  | nil => simp at hl
  | cons a t =>
    cases t with
    | nil =>
      simp at hl
      exact absurd hl (h.1 a rfl s)
    | cons b u =>
      simp only [List.length_cons]
      omega

theorem finger_addition_ne_none (state : State) (m : GesturesManager)
    (h : SeqOk m.performed_sequence) (hwf : FrameWF state) :
    finger_addition state m ≠ Option.none := by
  unfold finger_addition
  dsimp only
  split
  next hcond =>
    split
    next hfind => exact absurd hfind (find_fresh_key_ne_none state m.previous_state hwf hcond.1)
    next new_slot hfind =>
      split
      · simp
      next hnedge =>
        split
        next hlt =>
          exfalso
          split at hlt
          all_goals try rw [List.length_append, List.length_dropLast] at hlt
          all_goals try rw [List.length_append] at hlt
          all_goals try simp at hlt
          case h_1 =>
            have hlen := two_le_length_of_last_touchdown h (by assumption)
            omega
          case h_2 =>
            have hpos : 0 < m.performed_sequence.length := List.length_pos.mpr hcond.2
            omega
        next => split <;> simp
  next => simp

/-- C9: the finger-addition branch of `update_state` never panics on any
manager state reachable from startup and any well-formed frame (distinct
slot keys): the `.unwrap()` on the search for the newly added slot always
succeeds because a frame strictly larger than the previous one must
contain a key absent from it, and the two-step suffix inspection
`performed_sequence[len - 2..]` is always in bounds because a `TouchDown`
step is never the first element of `performed_sequence`.  The embedding
returns `none` exactly at the source's two panic points, so this states
that no reachable invocation panics. -/
theorem C9_update_state_no_panic (cfg : Config) (w : Window)
    (mtu tsz : MoveThresholdUnits) (m : GesturesManager)
    (hm : Reaches (GesturesManager.new cfg w mtu tsz) m)
    (state : State) (hwf : FrameWF state) :
    update_state m state ≠ Option.none := by
  have hseq := reaches_seqOk cfg w mtu tsz m hm
  unfold update_state
  dsimp only
  split
  · simp
  · have h6 := seqOk_phase6_soe _ state (seqOk_phase5_moves _ state
      (seqOk_phase4_edge _ state (seqOk_phase3_evict _ state (seqOk_phase12 m state hseq))))
    intro hcontra
    cases hfa : finger_addition state (phase6_soe (phase5_moves (phase4_edge (phase3_evict (phase12 m state) state) state).1 state) state).1 with
    | none => exact finger_addition_ne_none state _ h6 hwf hfa
    | some p =>
      rw [hfa] at hcontra
      simp at hcontra

theorem C9_update_state_no_panic_witness :
    update_state (GesturesManager.new cfg0 win0 ⟨150, 150⟩ ⟨1000, 1000⟩) [(0, ⟨500, 500⟩)] ≠
      Option.none :=
  C9_update_state_no_panic cfg0 win0 ⟨150, 150⟩ ⟨1000, 1000⟩ _ Reaches.refl
    [(0, ⟨500, 500⟩)] (by unfold FrameWF; decide)

/-- C7 (amended): on every manager state reachable from startup, no plain
`Move` step stored in `performed_sequence` carries `Direction::None`
(`point_side_in_ellipse` never returns `None` and `update_last_step`
preserves directions).  `MoveEdge` steps are the exception the
counterexample exhibits: they are created with `Direction::None` and keep
it until an edge ellipse exit assigns a direction. -/
theorem C7_moves_never_none (cfg : Config) (w : Window)
    (mtu tsz : MoveThresholdUnits) (m : GesturesManager)
    (hm : Reaches (GesturesManager.new cfg w mtu tsz) m)
    (slots : Finset Slot) (d : Direction) (dst : ℚ)
    (hmem : PerformedSequenceStep.Move slots d dst ∈ m.performed_sequence) :
    d ≠ Direction.None := by
  intro hd
  subst hd
  exact (reaches_seqOk cfg w mtu tsz m hm).2 _ hmem slots dst rfl

theorem C7_moves_never_none_witness : Direction.Up ≠ Direction.None :=
  C7_moves_never_none cfg0 win0 ⟨150, 150⟩ ⟨1000, 1000⟩ _
    (Reaches.step [(0, ⟨500, 50⟩)]
      (Reaches.step [(0, ⟨500, 500⟩)] Reaches.refl (by with_unfolding_all rfl))
      (by with_unfolding_all rfl))
    {0} Direction.Up (9/20) (by with_unfolding_all decide)


/-! ## Claim theorems -/

/-- C1: evaluation of the single-match tie-break at a failing input.
With the catalog listing `G2` (`min_distance = 0.4`) before `G1`
(`min_distance = 0.2`), an observed 1-finger Move Up of normalized
distance 0.45 and `run_all_matches = false`, the engine dispatches
exactly one command over the three frames (touch at centre, move up 450
units, all fingers lifted) — and it is `G1`'s command, not `G2`'s: the
selection loop of `match_gestures` starts from `matching_gestures[0]`
with a running maximum of 0 and scans only the remaining candidates, so
the first candidate's distances are never loaded into the maximum.  This
contradicts the claim that the gesture with the largest `min_distance`
wins regardless of catalog order. -/
theorem C1_eval :
    (runFrames mC1 [[(0, ⟨500, 500⟩)], [(0, ⟨500, 50⟩)], []]).map (fun p => p.2) =
        some ["cmd-g1"] ∧
      "cmd-g1" ≠ "cmd-g2" := by
  with_unfolding_all decide

/-- C2 counterexample: a gesture declared with `edge = Some(Left)` fires
for a performed sequence whose only contact started at the centre of the
touchpad (no edge): `does_gesture_match` never reads `gesture.edge`, so
after the frames (touch at centre, move up past the threshold) the
slide-mode match dispatches the edge gesture's command even though
`is_at_edge` rejects the starting position.  This refutes the claim that
a candidate matches only if its `edge` equals the starting edge. -/
theorem C2_counterexample :
    is_at_edge mC2 ⟨500, 500⟩ = Option.none ∧
      gEdgeC2.edge = some Edge.Left ∧
      (runFrames mC2 [[(0, ⟨500, 500⟩)], [(0, ⟨500, 50⟩)]]).map (fun p => p.2) =
        some ["edge-cmd"] := by
  with_unfolding_all decide

/-- C2 (amended): `does_gesture_match` imposes no condition on the
gesture's `edge` field — replacing it by any value leaves the result of
every matcher invocation unchanged; edge origin influences matching only
through `MoveEdge` steps inside the sequences themselves. -/
theorem C2_match_ignores_edge (m : GesturesManager) (g : Gesture)
    (rm : RepeatMode) (e : Option Edge) :
    does_gesture_match m { g with edge := e } rm = does_gesture_match m g rm := rfl

/-- C3: evaluation of the slide-mode restriction at a failing input.  A
gesture whose `repeat_mode` is the combined `tap + slide` bitset (0b11)
is rejected by `does_gesture_match` in slide mode, while the identical
gesture with `repeat_mode = slide` (0b10) is accepted: the code compares
`gesture.repeat_mode != RepeatMode::Slide` by bitset equality instead of
testing for the slide bit.  This contradicts the claim that including
the slide bit suffices. -/
theorem C3_eval :
    does_gesture_match mC3 gTapSlideC3 RepeatMode.Slide = false ∧
      gTapSlideC3.repeat_mode.slide = true ∧
      does_gesture_match mC3 gSlideOnlyC3 RepeatMode.Slide = true := by
  with_unfolding_all decide

/-- C4 counterexample: an empty frame does not reset the engine's
remembered `direction` — on a manager whose direction is `Up`, the
empty-frame branch of `update_state` leaves it `Up`, not the startup
default `None`.  This refutes the claim that every field of the engine
state returns to its startup default. -/
theorem C4_counterexample :
    (update_state mC4 []).map (fun p => p.1.direction) = some Direction.Up ∧
      Direction.Up ≠ Direction.None := by
  with_unfolding_all decide

/-- C5 counterexample: with `repeat_mode = slide` (not `none`), a slot
present in the previous frame but missing from the current non-empty
frame still gets a fresh `TouchUp` step appended — the eviction branch of
`update_state` contains no repeat-mode test.  This refutes the claim
that the `TouchUp` is appended only when `repeat_mode == none`. -/
theorem C5_counterexample :
    (update_state mC5 [(1, ⟨520, 500⟩)]).map (fun p => p.1.performed_sequence) =
        some [.Move {0, 1} Direction.Up (1/5), .TouchUp {0}] ∧
      mC5.repeat_mode ≠ RepeatMode.None := by
  with_unfolding_all decide

/-- C6 counterexample: the trailing Move step's recorded distance can
decrease between consecutive non-empty frames while the step stays open.
Frames: touch at (500,500); move to (500,300) — the trailing Move Up
records distance 0.2; move back to (500,400) — the trailing-distance
refinement overwrites the distance with the slot's current displacement
0.1 < 0.2.  This refutes the claimed monotonicity. -/
theorem C6_counterexample :
    (runFrames mC6 [[(0, ⟨500, 500⟩)], [(0, ⟨500, 300⟩)]]).map
        (fun p => p.1.performed_sequence) = some [.Move {0} Direction.Up (1/5)] ∧
      (runFrames mC6 [[(0, ⟨500, 500⟩)], [(0, ⟨500, 300⟩)], [(0, ⟨500, 400⟩)]]).map
        (fun p => p.1.performed_sequence) = some [.Move {0} Direction.Up (1/10)] ∧
      ((1 : ℚ)/10 < 1/5) := by
  with_unfolding_all decide

/-- C7 counterexample: after a single frame whose only (fresh) contact
lies at the left edge, `update_state` leaves a `MoveEdge` step carrying
`Direction::None` in `performed_sequence` (the step is pushed with
direction `None` and keeps it until an edge ellipse exit overwrites it).
This refutes the claim that no stored step carries `Direction::None`. -/
theorem C7_counterexample :
    (update_state mC7 [(0, ⟨10, 500⟩)]).map (fun p => p.1.performed_sequence) =
      some [.MoveEdge {0} Edge.Left Direction.None 0] := by
  with_unfolding_all decide

/-- C8: evaluation of the application-binding key classification of
`Config::from_raw`.  A `title:`-prefixed key lands in `by_title` and a
bare key lands in `by_class` as claimed, but a `class:`-prefixed key
*also* lands in `by_title` (src/config.rs line 211 pushes the compiled
class regex onto `by_title`), so its gestures are matched against the
window title — contradicting the claim that `class:<regex>` produces a
by_class binding. -/
theorem C8_eval :
    from_raw_app_entry ⟨[], []⟩ "title:abc" gsC8 = some ⟨[("abc", gsC8)], []⟩ ∧
      from_raw_app_entry ⟨[], []⟩ "abc" gsC8 = some ⟨[], [("abc", gsC8)]⟩ ∧
      from_raw_app_entry ⟨[], []⟩ "class:abc" gsC8 = some ⟨[("abc", gsC8)], []⟩ := by
  with_unfolding_all decide

/-- C4 (amended): processing an empty frame resets `previous_state`,
`touch_down_state`, `initial_touch_down_state`, `performed_sequence`,
`slots_outside_ellipse` and `repeat_mode` to their startup defaults, but
leaves the remembered `direction` unchanged (the empty-frame branch never
writes it). -/
theorem C4_empty_frame_reset (m : GesturesManager) :
    ∃ m2 c, update_state m [] = some (m2, c) ∧
      m2.previous_state = [] ∧ m2.touch_down_state = [] ∧
      m2.initial_touch_down_state = [] ∧ m2.performed_sequence = [] ∧
      m2.slots_outside_ellipse = ∅ ∧ m2.repeat_mode = RepeatMode.None ∧
      m2.direction = m.direction := by
  have hr : ((if m.repeat_mode = RepeatMode.None then match_gestures m RepeatMode.None
        else (false, [], { m with repeat_mode := RepeatMode.None })).2.2.repeat_mode =
          RepeatMode.None) ∧
      ((if m.repeat_mode = RepeatMode.None then match_gestures m RepeatMode.None
        else (false, [], { m with repeat_mode := RepeatMode.None })).2.2.direction =
          m.direction) := by
    split
    next hrm =>
      rcases match_gestures_cases m RepeatMode.None with ⟨_, h2⟩ | ⟨_, h2⟩ <;> rw [h2]
      · exact ⟨hrm, rfl⟩
      · exact ⟨rfl, rfl⟩
    next => exact ⟨rfl, rfl⟩
  exact ⟨_, _, rfl, rfl, rfl, rfl, rfl, rfl, hr.1, hr.2⟩

/-- C5 (amended): whenever a lifted slot is evicted and the trailing
performed step is not a `TouchUp`, the eviction branch appends
`TouchUp { {slot} }` unconditionally — `evict_one` takes no repeat-mode
input at all, so the append happens under tap and slide repeat exactly as
under `none`. -/
theorem C5_evict_appends_touchup (state : State) (m : GesturesManager) (slot : Slot)
    (h : lastIsTouchUp m.performed_sequence = false) :
    (evict_one state m slot).performed_sequence =
      m.performed_sequence ++ [PerformedSequenceStep.TouchUp {slot}] := by
  unfold evict_one
  split
  next slots heq =>
    exfalso
    unfold lastIsTouchUp at h
    rw [heq] at h
    simp at h
  next => rfl

theorem C5_evict_appends_touchup_witness :
    (evict_one [] mC5 0).performed_sequence =
      mC5.performed_sequence ++ [PerformedSequenceStep.TouchUp {0}] :=
  C5_evict_appends_touchup [] mC5 0 (by with_unfolding_all decide)

/-- C6 (amended): when the trailing step is a `Move` with the same
direction, `update_last_step` *assigns* `distance / size` to the step's
recorded distance — it does not take a maximum with the previous value, so
the recorded distance follows the slot's current displacement and may
decrease. -/
theorem C6_update_overwrites_distance (tsz : MoveThresholdUnits)
    (pre : List PerformedSequenceStep) (slots : Finset Slot) (dir : Direction)
    (dst : ℚ) (slot : Slot) (distance : ℚ) (h : dir ≠ Direction.None) :
    update_last_step tsz (pre ++ [PerformedSequenceStep.Move slots dir dst]) slot dir distance =
      (true, pre ++ [PerformedSequenceStep.Move (insert slot slots) dir
        (distance / (dir_size tsz dir : ℚ))]) := by
  unfold update_last_step
  rw [List.getLast?_concat]
  dsimp only
  rw [if_pos rfl]
  cases dir with
  | None => exact absurd rfl h
  | Up => rw [List.dropLast_concat]
  | Down => rw [List.dropLast_concat]
  | Left => rw [List.dropLast_concat]
  | Right => rw [List.dropLast_concat]

theorem C6_update_overwrites_distance_witness :
    update_last_step ⟨1000, 1000⟩
        ([] ++ [PerformedSequenceStep.Move {0} Direction.Up (1/5)]) 0 Direction.Up 100 =
      (true, [] ++ [PerformedSequenceStep.Move (insert 0 {0}) Direction.Up
        ((100 : ℚ) / (dir_size ⟨1000, 1000⟩ Direction.Up : ℚ))]) :=
  C6_update_overwrites_distance ⟨1000, 1000⟩ [] {0} Direction.Up (1/5) 0 100 (by decide)

/-- C10: `match_gestures` leaves the performed sequence and the repeat
mode unchanged when it returns `false` (the split-off trailing
`TouchDown`/`TouchUp` steps are re-appended in their original order,
recombining to exactly the entry value), and when it returns `true` it
permanently discards those trailing steps (`drop_trailing_touch`) and
sets `repeat_mode` to the invocation mode. -/
theorem C10_match_gestures_restores_or_trims (m : GesturesManager) (rm : RepeatMode) :
    ((match_gestures m rm).1 = false →
      (match_gestures m rm).2.2.performed_sequence = m.performed_sequence ∧
      (match_gestures m rm).2.2.repeat_mode = m.repeat_mode) ∧
    ((match_gestures m rm).1 = true →
      (match_gestures m rm).2.2.performed_sequence = drop_trailing_touch m.performed_sequence ∧
      (match_gestures m rm).2.2.repeat_mode = rm) := by
  rcases match_gestures_cases m rm with ⟨h1, h2⟩ | ⟨h1, h2⟩ <;> rw [h1, h2] <;>
    constructor <;> intro hb <;>
    first
      | exact ⟨rfl, rfl⟩
      | exact absurd hb (by simp)

theorem C10_match_gestures_witness :
    (match_gestures mC10 RepeatMode.Tap).2.2.performed_sequence = mC10.performed_sequence ∧
    (match_gestures mC10 RepeatMode.Tap).2.2.repeat_mode = mC10.repeat_mode :=
  (C10_match_gestures_restores_or_trims mC10 RepeatMode.Tap).1 (by with_unfolding_all decide)

end Gest
